import Mathlib

/-!
Verification development for the nba-analyst repository.

Shallow embedding of the core pipeline pieces:
  * `american_odds_to_prob`   (scripts/train-ml-model-v3.py, NBAMLTrainerV3.american_odds_to_prob)
  * rolling-form features     (scripts/train-ml-model-v3.py, NBAMLTrainerV3.engineer_features)
  * team identity resolution  (scripts/train-ml-model-v3.py, map_team_name;
                               scripts/create-team-mapping.py, TEAM_MAPPING)
  * games/odds merge          (scripts/train-ml-model-v3.py, NBAMLTrainerV3.engineer_features)
  * training-run guard        (scripts/train-ml-model-v3.py, NBAMLTrainerV3.run / train_2025_model)
  * temporal train/test split (scripts/train-ml-model-v3.py, NBAMLTrainerV3.train_model)
  * artifact selection        (scripts/predict-games-v3.py, NBAPredictorV3.load_model)
  * serving endpoints         (python-service/app.py, predict_batch / predict_single)

Numbers are embedded as `ℚ` (the Python code does exact small-integer arithmetic in the
places modelled here), missing values as `Option`, raised exceptions as `Except`/`Option`.
-/

/-! ### American odds conversion

Source (train-ml-model-v3.py, lines 181-192):
```
def american_odds_to_prob(self, odds):
    if pd.isna(odds):
        return 0.5
    try:
        odds = float(odds)
        if odds > 0:
            return 100 / (odds + 100)
        else:
            return abs(odds) / (abs(odds) + 100)
    except:
        return 0.5
```
A missing (`NaN`) or unparsable price is embedded as `none`; a parsed numeric price as
`some p`.  The bare `except` branch and the `pd.isna` branch both return `0.5`, so `none`
covers both. -/
def american_odds_to_prob : Option ℚ → ℚ
  | none => 1/2
  | some odds => if odds > 0 then 100 / (odds + 100) else |odds| / (|odds| + 100)

example : american_odds_to_prob (some 150) = 2/5 := by norm_num [american_odds_to_prob]
example : american_odds_to_prob (some (-200)) = 2/3 := by norm_num [american_odds_to_prob]
example : american_odds_to_prob none = 1/2 := rfl
example : american_odds_to_prob (some 0) = 0 := by norm_num [american_odds_to_prob]

/-! ### Rolling-form features

Source (train-ml-model-v3.py, lines 131-140), applied to the merged frame after
`merged = merged.sort_values('date')`:
```
merged['home_last10_wins'] = merged.groupby('home_team')['home_win'].transform(
    lambda x: x.shift(1).rolling(window=10, min_periods=1).mean()
).fillna(0.5)

merged['away_last10_wins'] = merged.groupby('away_team')['home_win'].transform(
    lambda x: (1 - x).shift(1).rolling(window=10, min_periods=1).mean()
).fillna(0.5)
```
The embedding takes the date-sorted row sequence as a list.  For the row at index `i`,
the group of pandas' `groupby('home_team')` restricted to earlier positions is
`(rows.take i).filter (home_team = ...)`.  `shift(1)` makes the value at group position
`j` refer to group position `j - 1` and puts `NaN` at group position `0`;
`rolling(window=10, min_periods=1).mean()` then averages the non-`NaN` entries among the
up-to-10 window positions, i.e. the last `min j 10` pre-shift values; at group position
`0` the window holds no non-`NaN` entry, the result is `NaN`, and `.fillna(0.5)` turns it
into `0.5`. -/

structure JoinedRow where
  date : Int
  home_team : String
  away_team : String
  home_win : Bool
  deriving Repr, DecidableEq

/-- The 0/1 value of the `home_win` column. -/
def home_win_val (r : JoinedRow) : ℚ := if r.home_win then 1 else 0

/-- The last `n` elements of a list (the rolling window contents). -/
def lastWindow (n : Nat) (l : List ℚ) : List ℚ := l.drop (l.length - n)

/-- Mean of a list of rationals. -/
def listMean (l : List ℚ) : ℚ := l.sum / (l.length : ℚ)

/-- `home_last10_wins` for the row at index `i` of the date-sorted row list. -/
def home_last10_wins (rows : List JoinedRow) (i : Nat) : ℚ :=
  match rows[i]? with
  | none => 1/2
  | some r =>
    let prior := (rows.take i).filter (fun s => s.home_team == r.home_team)
    if prior.isEmpty then 1/2
    else listMean (lastWindow 10 (prior.map home_win_val))

/-- `away_last10_wins` for the row at index `i` of the date-sorted row list; the
grouped column is `1 - home_win`. -/
def away_last10_wins (rows : List JoinedRow) (i : Nat) : ℚ :=
  match rows[i]? with
  | none => 1/2
  | some r =>
    let prior := (rows.take i).filter (fun s => s.away_team == r.away_team)
    if prior.isEmpty then 1/2
    else listMean (lastWindow 10 (prior.map (fun s => 1 - home_win_val s)))

section RollingFormExamples

def exRows : List JoinedRow :=
  [⟨1, "a", "b", true⟩, ⟨2, "a", "c", false⟩, ⟨3, "a", "b", true⟩, ⟨4, "d", "a", true⟩]

example : home_last10_wins exRows 0 = 1/2 := by
  norm_num [home_last10_wins, exRows, listMean, lastWindow, home_win_val]
example : home_last10_wins exRows 1 = 1 := by
  norm_num [home_last10_wins, exRows, listMean, lastWindow, home_win_val]
example : home_last10_wins exRows 2 = 1/2 := by
  norm_num [home_last10_wins, exRows, listMean, lastWindow, home_win_val]
example : away_last10_wins exRows 2 = 0 := by
  norm_num +decide [away_last10_wins, exRows, listMean, lastWindow, home_win_val]
example : away_last10_wins exRows 3 = 1/2 := by
  norm_num +decide [away_last10_wins, exRows, listMean, lastWindow, home_win_val]

end RollingFormExamples

/-- Unfolding equation for `home_last10_wins` when row `i` exists. -/
lemma home_last10_wins_eq (rows : List JoinedRow) (i : Nat) (r : JoinedRow)
    (hr : rows[i]? = some r) :
    home_last10_wins rows i =
      if ((rows.take i).filter (fun s => s.home_team == r.home_team)).isEmpty then (1/2 : ℚ)
      else listMean (lastWindow 10 (((rows.take i).filter
        (fun s => s.home_team == r.home_team)).map home_win_val)) := by
  simp [home_last10_wins, hr]

/-- Unfolding equation for `away_last10_wins` when row `i` exists. -/
lemma away_last10_wins_eq (rows : List JoinedRow) (i : Nat) (r : JoinedRow)
    (hr : rows[i]? = some r) :
    away_last10_wins rows i =
      if ((rows.take i).filter (fun s => s.away_team == r.away_team)).isEmpty then (1/2 : ℚ)
      else listMean (lastWindow 10 (((rows.take i).filter
        (fun s => s.away_team == r.away_team)).map (fun s => 1 - home_win_val s))) := by
  simp [away_last10_wins, hr]

/-- Taking the prefix before index `i` is unaffected by truncating the list after index `i`. -/
lemma take_succ_take (rows : List JoinedRow) (i : Nat) :
    (rows.take (i+1)).take i = rows.take i := by
  rw [List.take_take]
  congr 1
  omega

/-- C1: the rolling-form features at index `i` use only that team's rows strictly before
index `i`: they are invariant under truncating the date-sorted input after row `i`; a row
whose team has no prior row in its group gets exactly `1/2`; otherwise the feature is the
mean of the window of (at most) the 10 prior group values, the group having been shifted by
one position before windowing. -/
theorem rolling_form_point_in_time (rows : List JoinedRow) (i : Nat) (h : i < rows.length) :
    home_last10_wins (rows.take (i+1)) i = home_last10_wins rows i ∧
    away_last10_wins (rows.take (i+1)) i = away_last10_wins rows i ∧
    (∀ r, rows[i]? = some r →
      (((rows.take i).filter (fun s => s.home_team == r.home_team)).isEmpty = true →
        home_last10_wins rows i = 1/2) ∧
      (((rows.take i).filter (fun s => s.away_team == r.away_team)).isEmpty = true →
        away_last10_wins rows i = 1/2) ∧
      (((rows.take i).filter (fun s => s.home_team == r.home_team)).isEmpty = false →
        home_last10_wins rows i = listMean (lastWindow 10
          (((rows.take i).filter (fun s => s.home_team == r.home_team)).map home_win_val))) ∧
      (((rows.take i).filter (fun s => s.away_team == r.away_team)).isEmpty = false →
        away_last10_wins rows i = listMean (lastWindow 10
          (((rows.take i).filter (fun s => s.away_team == r.away_team)).map
            (fun s => 1 - home_win_val s))))) := by
  have hsome : rows[i]? = some rows[i] := List.getElem?_eq_getElem h
  have hsome' : (rows.take (i+1))[i]? = some rows[i] := by
    rw [List.getElem?_take_of_lt (Nat.lt_succ_self i)]
    exact hsome
  refine ⟨?_, ?_, ?_⟩
  · rw [home_last10_wins_eq _ _ _ hsome', home_last10_wins_eq _ _ _ hsome, take_succ_take]
  · rw [away_last10_wins_eq _ _ _ hsome', away_last10_wins_eq _ _ _ hsome, take_succ_take]
  · intro r hr
    rw [hsome] at hr
    injection hr with hr
    subst hr
    rw [home_last10_wins_eq _ _ _ hsome, away_last10_wins_eq _ _ _ hsome]
    refine ⟨fun he => by simp [he], fun he => by simp [he], fun he => by simp [he],
      fun he => by simp [he]⟩

/-- C1 witness: the invariance and the no-prior-game default evaluated on a concrete
row sequence. -/
theorem rolling_form_point_in_time_witness :
    (home_last10_wins (exRows.take 3) 2 = home_last10_wins exRows 2 ∧
     away_last10_wins (exRows.take 3) 2 = away_last10_wins exRows 2) ∧
    home_last10_wins exRows 0 = 1/2 := by
  refine ⟨⟨(rolling_form_point_in_time exRows 2 (by decide)).1,
           (rolling_form_point_in_time exRows 2 (by decide)).2.1⟩, ?_⟩
  exact ((((rolling_form_point_in_time exRows 0 (by decide)).2.2)
    ⟨1, "a", "b", true⟩ rfl).1) (by decide)

/-- C2: `american_odds_to_prob` returns exactly `1/2` on a missing/invalid price;
`100 / (p + 100)` on a positive price `p`; `|p| / (|p| + 100)` on a negative price `p`;
and for every nonzero price the result lies strictly between `0` and `1`. -/
theorem american_odds_to_prob_spec :
    american_odds_to_prob none = 1/2 ∧
    (∀ p : ℚ, 0 < p → american_odds_to_prob (some p) = 100 / (p + 100)) ∧
    (∀ p : ℚ, p < 0 → american_odds_to_prob (some p) = |p| / (|p| + 100)) ∧
    (∀ p : ℚ, p ≠ 0 →
      0 < american_odds_to_prob (some p) ∧ american_odds_to_prob (some p) < 1) := by
  refine ⟨rfl, fun p hp => ?_, fun p hp => ?_, fun p hp => ?_⟩
  · simp [american_odds_to_prob, hp]
  · simp [american_odds_to_prob, not_lt.mpr hp.le]
  · rcases lt_or_gt_of_ne hp with hneg | hpos
    · have ha : 0 < |p| := abs_pos.mpr hp
      have hd : 0 < |p| + 100 := by linarith
      simp only [american_odds_to_prob, if_neg (not_lt.mpr hneg.le)]
      exact ⟨div_pos ha hd, (div_lt_one hd).mpr (by linarith)⟩
    · have hd : 0 < p + 100 := by linarith
      simp only [american_odds_to_prob, if_pos hpos]
      exact ⟨div_pos (by norm_num) hd, (div_lt_one hd).mpr (by linarith)⟩

/-- C2 witness: the conversion evaluated at the concrete prices `+150` and `-200`. -/
theorem american_odds_to_prob_spec_witness :
    american_odds_to_prob (some 150) = 100 / (150 + 100) ∧
    american_odds_to_prob (some (-200)) = |(-200 : ℚ)| / (|(-200 : ℚ)| + 100) ∧
    0 < american_odds_to_prob (some (-200)) ∧ american_odds_to_prob (some (-200)) < 1 :=
  ⟨american_odds_to_prob_spec.2.1 150 (by norm_num),
   american_odds_to_prob_spec.2.2.1 (-200) (by norm_num),
   american_odds_to_prob_spec.2.2.2 (-200) (by norm_num)⟩

/-- C10: a present, numeric price of exactly `0` takes the non-positive branch and yields
`|0| / (|0| + 100) = 0` — not the neutral `1/2` of a missing price, and not a value
strictly inside `(0, 1)`. -/
theorem american_odds_to_prob_zero :
    american_odds_to_prob (some 0) = 0 ∧
    american_odds_to_prob (some 0) ≠ american_odds_to_prob none ∧
    ¬ 0 < american_odds_to_prob (some 0) := by
  norm_num [american_odds_to_prob]

/-! ### Team identity resolution

Source (train-ml-model-v3.py, lines 97-109):
```
team_map = dict(zip(mapping_df['abbreviation'].str.upper(),
                   mapping_df['full_name'].str.lower()))

def map_team_name(team):
    team = str(team).strip().upper()
    if team in team_map:
        return team_map[team]
    return str(team).lower().strip()
```
`mapping_df` is the `team_mapping` table created by scripts/create-team-mapping.py from
the `TEAM_MAPPING` dict literal (which repeats the key `CHA`: first with value
`Charlotte Hornets`, later with value `Charlotte Bobcats`; the dict literal keeps the
last value for a repeated key).

A token (Python `str`) is embedded as the list of its character code points; the
`.strip()/.lower()/.upper()` operations act on the ASCII range, which covers every
character appearing in the alias table and the team tokens of the data sources. -/

abbrev Token := List Nat

/-- ASCII `str.lower` on one code point. -/
def pyLower (c : Nat) : Nat := if 65 ≤ c ∧ c ≤ 90 then c + 32 else c

/-- ASCII `str.upper` on one code point. -/
def pyUpper (c : Nat) : Nat := if 97 ≤ c ∧ c ≤ 122 then c - 32 else c

/-- ASCII whitespace, as removed by `str.strip`. -/
def isSpaceChar (c : Nat) : Bool := decide (c = 32 ∨ (9 ≤ c ∧ c ≤ 13))

/-- `str.lower`. -/
def lowerTok (t : Token) : Token := t.map pyLower

/-- `str.upper`. -/
def upperTok (t : Token) : Token := t.map pyUpper

/-- `str.strip`: drop leading and trailing whitespace. -/
def stripTok (t : Token) : Token :=
  ((t.dropWhile isSpaceChar).reverse.dropWhile isSpaceChar).reverse

/-- Character codes of a string literal (used only to write down the alias table and
concrete inputs). -/
def codes (s : String) : Token := s.toList.map Char.toNat

/-- The `TEAM_MAPPING` dict literal of scripts/create-team-mapping.py, in source order.
The key `CHA` appears twice (`Charlotte Hornets` first, `Charlotte Bobcats` later). -/
def TEAM_MAPPING : List (Token × Token) :=
  [ (codes "ATL", codes "Atlanta Hawks"),
    (codes "BOS", codes "Boston Celtics"),
    (codes "BRK", codes "Brooklyn Nets"),
    (codes "BKN", codes "Brooklyn Nets"),
    (codes "CHA", codes "Charlotte Hornets"),
    (codes "CHI", codes "Chicago Bulls"),
    (codes "CHO", codes "Charlotte Hornets"),
    (codes "CLE", codes "Cleveland Cavaliers"),
    (codes "DAL", codes "Dallas Mavericks"),
    (codes "DEN", codes "Denver Nuggets"),
    (codes "DET", codes "Detroit Pistons"),
    (codes "GSW", codes "Golden State Warriors"),
    (codes "HOU", codes "Houston Rockets"),
    (codes "IND", codes "Indiana Pacers"),
    (codes "LAC", codes "LA Clippers"),
    (codes "LAL", codes "Los Angeles Lakers"),
    (codes "MEM", codes "Memphis Grizzlies"),
    (codes "MIA", codes "Miami Heat"),
    (codes "MIL", codes "Milwaukee Bucks"),
    (codes "MIN", codes "Minnesota Timberwolves"),
    (codes "NOP", codes "New Orleans Pelicans"),
    (codes "NYK", codes "New York Knicks"),
    (codes "NYN", codes "New Jersey Nets"),
    (codes "OKC", codes "Oklahoma City Thunder"),
    (codes "ORL", codes "Orlando Magic"),
    (codes "PHI", codes "Philadelphia 76ers"),
    (codes "PHO", codes "Phoenix Suns"),
    (codes "PHX", codes "Phoenix Suns"),
    (codes "POR", codes "Portland Trail Blazers"),
    (codes "SAC", codes "Sacramento Kings"),
    (codes "SAS", codes "San Antonio Spurs"),
    (codes "TOR", codes "Toronto Raptors"),
    (codes "UTA", codes "Utah Jazz"),
    (codes "WAS", codes "Washington Wizards"),
    (codes "NJN", codes "New Jersey Nets"),
    (codes "NOH", codes "New Orleans Hornets"),
    (codes "CHA", codes "Charlotte Bobcats"),
    (codes "SEA", codes "Seattle SuperSonics"),
    (codes "VAN", codes "Vancouver Grizzlies"),
    (codes "KCK", codes "Kansas City Kings"),
    (codes "SDC", codes "San Diego Clippers") ]

/-- Python dict lookup over an association list written in insertion order: a repeated
key keeps the value inserted last. -/
def dictLookup (m : List (Token × Token)) (k : Token) : Option Token :=
  m.foldl (fun acc p => if p.1 = k then some p.2 else acc) none

/-- The `team_map` dict: keys upper-cased abbreviations, values lower-cased full names. -/
def team_map : List (Token × Token) :=
  TEAM_MAPPING.map (fun p => (upperTok p.1, lowerTok p.2))

/-- `map_team_name` from train-ml-model-v3.py. -/
def map_team_name (team : Token) : Token :=
  match dictLookup team_map (upperTok (stripTok team)) with
  | some v => v
  | none => stripTok (lowerTok team)

example : map_team_name (codes " lal ") = codes "los angeles lakers" := by decide
example : map_team_name (codes "Boston Celtics") = codes "boston celtics" := by decide

lemma pyLower_pyLower (c : Nat) : pyLower (pyLower c) = pyLower c := by
  by_cases h : 65 ≤ c ∧ c ≤ 90
  · rw [show pyLower c = c + 32 from if_pos h]
    exact if_neg (by omega)
  · rw [show pyLower c = c from if_neg h]
    exact if_neg h

lemma pyUpper_pyLower (c : Nat) : pyUpper (pyLower c) = pyUpper c := by
  by_cases h : 65 ≤ c ∧ c ≤ 90
  · rw [show pyLower c = c + 32 from if_pos h]
    rw [show pyUpper (c + 32) = c + 32 - 32 from if_pos (by omega),
        show pyUpper c = c from if_neg (by omega)]
    omega
  · rw [show pyLower c = c from if_neg h]

lemma isSpaceChar_pyLower (c : Nat) : isSpaceChar (pyLower c) = isSpaceChar c := by
  by_cases h : 65 ≤ c ∧ c ≤ 90
  · rw [show pyLower c = c + 32 from if_pos h]
    unfold isSpaceChar
    apply decide_eq_decide.mpr
    constructor <;> intro h2 <;> omega
  · rw [show pyLower c = c from if_neg h]

lemma lowerTok_lowerTok (t : Token) : lowerTok (lowerTok t) = lowerTok t := by
  have hf : pyLower ∘ pyLower = pyLower := funext pyLower_pyLower
  simp only [lowerTok, List.map_map, hf]

lemma upperTok_lowerTok (t : Token) : upperTok (lowerTok t) = upperTok t := by
  have hf : pyUpper ∘ pyLower = pyUpper := funext pyUpper_pyLower
  simp only [upperTok, lowerTok, List.map_map, hf]

lemma stripTok_lowerTok (t : Token) : stripTok (lowerTok t) = lowerTok (stripTok t) := by
  have hp : isSpaceChar ∘ pyLower = isSpaceChar := funext isSpaceChar_pyLower
  simp only [stripTok, lowerTok]
  rw [List.dropWhile_map, hp, ← List.map_reverse, List.dropWhile_map, hp, ← List.map_reverse]

lemma head_dropWhile_false (p : Nat → Bool) (l : List Nat) (c : Nat)
    (h : (l.dropWhile p).head? = some c) : p c = false := by
  have h2 := List.head?_dropWhile_not p l
  rw [h] at h2
  exact h2

lemma dropWhile_eq_self_of_head (p : Nat → Bool) (l : List Nat)
    (h : ∀ c, l.head? = some c → p c = false) : l.dropWhile p = l := by
  cases l with
  | nil => rfl
  | cons a t => exact List.dropWhile_cons_of_neg (by simp [h a rfl])

lemma getLast?_dropWhile (p : Nat → Bool) (l : List Nat) (h : l.dropWhile p ≠ []) :
    (l.dropWhile p).getLast? = l.getLast? := by
  induction l with
  | nil => simp at h
  | cons a t ih =>
    by_cases hp : p a
    · rw [List.dropWhile_cons_of_pos hp] at h ⊢
      have ht : t ≠ [] := by
        rintro rfl
        simp at h
      rw [ih h]
      cases t with
      | nil => exact absurd rfl ht
      | cons b u => simp
    · rw [List.dropWhile_cons_of_neg hp]

lemma stripTok_stripTok (t : Token) : stripTok (stripTok t) = stripTok t := by
  by_cases hy : (t.dropWhile isSpaceChar).reverse.dropWhile isSpaceChar = []
  · simp [stripTok, hy]
  · have hst : stripTok t = ((t.dropWhile isSpaceChar).reverse.dropWhile isSpaceChar).reverse :=
      rfl
    set x := t.dropWhile isSpaceChar with hx
    set y := x.reverse.dropWhile isSpaceChar with hyy
    have hyhead : ∀ c, y.head? = some c → isSpaceChar c = false := fun c hc =>
      head_dropWhile_false _ _ _ (by rw [← hyy, hc])
    have hxhead : ∀ c, x.head? = some c → isSpaceChar c = false := fun c hc =>
      head_dropWhile_false _ _ _ (by rw [← hx, hc])
    have hylast : ∀ c, y.getLast? = some c → isSpaceChar c = false := by
      intro c hc
      have h1 : y.getLast? = x.reverse.getLast? := getLast?_dropWhile _ _ hy
      rw [List.getLast?_reverse] at h1
      exact hxhead c (h1 ▸ hc)
    have h2 : y.reverse.dropWhile isSpaceChar = y.reverse := by
      apply dropWhile_eq_self_of_head
      intro c hc
      rw [List.head?_reverse] at hc
      exact hylast c hc
    have h3 : y.dropWhile isSpaceChar = y :=
      dropWhile_eq_self_of_head _ _ hyhead
    calc stripTok (stripTok t)
        = ((y.reverse.dropWhile isSpaceChar).reverse.dropWhile isSpaceChar).reverse := by
          rw [hst]
          rfl
      _ = (y.reverse.reverse.dropWhile isSpaceChar).reverse := by rw [h2]
      _ = (y.dropWhile isSpaceChar).reverse := by rw [List.reverse_reverse]
      _ = y.reverse := by rw [h3]
      _ = stripTok t := hst.symm

lemma dictLookup_foldl_aux (k v : Token) (m : List (Token × Token)) :
    ∀ acc : Option Token,
      m.foldl (fun acc p => if p.1 = k then some p.2 else acc) acc = some v →
      v ∈ m.map Prod.snd ∨ acc = some v := by
  induction m with
  | nil => intro acc ha; exact Or.inr ha
  | cons a t ih =>
    intro acc ha
    rw [List.foldl_cons] at ha
    rcases ih _ ha with hm | hacc
    · exact Or.inl (by simp only [List.map_cons, List.mem_cons]; exact Or.inr hm)
    · by_cases hk : a.1 = k
      · rw [if_pos hk] at hacc
        exact Or.inl (by simp [Option.some.inj hacc])
      · rw [if_neg hk] at hacc
        exact Or.inr hacc

lemma dictLookup_mem_snd (m : List (Token × Token)) (k v : Token)
    (h : dictLookup m k = some v) : v ∈ m.map Prod.snd := by
  rcases dictLookup_foldl_aux k v m none h with hm | hn
  · exact hm
  · exact absurd hn (by simp)

set_option maxRecDepth 8000 in
/-- Every value of the alias table is a fixed point of `map_team_name` (finite check over
the 41 table entries). -/
lemma team_map_values_fixed : ∀ v ∈ team_map.map Prod.snd, map_team_name v = v := by decide

/-- C6: team identity resolution is a total function on tokens: a token whose stripped,
upper-cased form is a key of `team_map` resolves to the stored (lower-cased) canonical
name, any other token resolves to its own lower-cased, stripped form, and resolution is
idempotent. -/
theorem map_team_name_idempotent (team : Token) :
    (∀ v, dictLookup team_map (upperTok (stripTok team)) = some v → map_team_name team = v) ∧
    (dictLookup team_map (upperTok (stripTok team)) = none →
      map_team_name team = stripTok (lowerTok team)) ∧
    map_team_name (map_team_name team) = map_team_name team := by
  refine ⟨fun v hv => by simp [map_team_name, hv], fun hn => by simp [map_team_name, hn], ?_⟩
  cases he : dictLookup team_map (upperTok (stripTok team)) with
  | some v =>
    have h1 : map_team_name team = v := by simp [map_team_name, he]
    rw [h1]
    exact team_map_values_fixed v (dictLookup_mem_snd _ _ _ he)
  | none =>
    have h1 : map_team_name team = stripTok (lowerTok team) := by simp [map_team_name, he]
    rw [h1]
    have hkey : upperTok (stripTok (stripTok (lowerTok team))) = upperTok (stripTok team) := by
      rw [stripTok_stripTok, stripTok_lowerTok, upperTok_lowerTok]
    have h4 : dictLookup team_map (upperTok (stripTok (stripTok (lowerTok team)))) = none := by
      rw [hkey]
      exact he
    have h5 : map_team_name (stripTok (lowerTok team)) =
        stripTok (lowerTok (stripTok (lowerTok team))) := by
      simp [map_team_name, h4]
    rw [h5, stripTok_lowerTok, stripTok_stripTok, stripTok_lowerTok, lowerTok_lowerTok]

/-- C6 witness: resolution and idempotence evaluated at concrete tokens. -/
theorem map_team_name_idempotent_witness :
    map_team_name (codes " CHA ") = lowerTok (codes "Charlotte Bobcats") ∧
    map_team_name (map_team_name (codes "Xy z")) = map_team_name (codes "Xy z") :=
  ⟨(map_team_name_idempotent (codes " CHA ")).1 (lowerTok (codes "Charlotte Bobcats"))
      (by decide),
   (map_team_name_idempotent (codes "Xy z")).2.2⟩

/-- C9: the alias `CHA` is entered twice in `TEAM_MAPPING` (first `Charlotte Hornets`,
later `Charlotte Bobcats`); resolution returns the mapping inserted last, so `CHA`
resolves to `charlotte bobcats`, never to `charlotte hornets`. -/
theorem duplicate_alias_resolves_last :
    map_team_name (codes "CHA") = lowerTok (codes "Charlotte Bobcats") ∧
    map_team_name (codes "CHA") ≠ lowerTok (codes "Charlotte Hornets") := by
  constructor <;> decide

/-! ### Games/odds merge

Source (train-ml-model-v3.py, lines 111-125):
```
games_df['home_team_mapped'] = games_df['home_team'].apply(map_team_name)
games_df['away_team_mapped'] = games_df['away_team'].apply(map_team_name)
odds_df['home_team_clean'] = odds_df['home_team'].str.strip().str.lower()
odds_df['away_team_clean'] = odds_df['away_team'].str.strip().str.lower()
merged = games_df.merge(
    odds_df[['season', 'home_team_clean', 'away_team_clean',
            'spread', 'over_under', 'ml_home', 'ml_away']],
    left_on=['season', 'home_team_mapped', 'away_team_mapped'],
    right_on=['season', 'home_team_clean', 'away_team_clean'],
    how='inner')
```
A relational inner equi-join: every (game row, odds row) pair whose keys agree
contributes one output row.  No aggregation of the odds rows precedes the join. -/

structure GameRec where
  game_id : Nat
  date : Int
  season : Int
  home_team : Token
  away_team : Token
  home_win : Bool
  deriving Repr, DecidableEq

structure OddsRec where
  season : Int
  date : Int
  home_team : Token
  away_team : Token
  spread : Option ℚ
  over_under : Option ℚ
  ml_home : Option ℚ
  ml_away : Option ℚ
  deriving Repr, DecidableEq

/-- The join-key comparison of the merge: `season` equality plus canonicalised team
identities on both sides. -/
def odds_key_match (g : GameRec) (o : OddsRec) : Bool :=
  decide (o.season = g.season) &&
  (lowerTok (stripTok o.home_team) == map_team_name g.home_team) &&
  (lowerTok (stripTok o.away_team) == map_team_name g.away_team)

/-- The inner merge of `engineer_features`: all key-matching (game, odds) pairs. -/
def merge_games_odds (games : List GameRec) (odds : List OddsRec) :
    List (GameRec × OddsRec) :=
  games.flatMap (fun g => (odds.filter (fun o => odds_key_match g o)).map (fun o => (g, o)))

def cg0 : GameRec := ⟨1, 5, 2020, codes "x", codes "y", true⟩
def co1 : OddsRec := ⟨2020, 5, codes "x", codes "y", some 4, some 220, some 130, some 110⟩
def co2 : OddsRec := ⟨2020, 5, codes "x", codes "y", some 7, some 215, some 120, some 100⟩

/-- C3: the merge does **not** reduce multiple odds rows to one row per game before
joining: a single game record with two odds rows of the same (season, home, away) key
produces two joined rows — the game row is duplicated by the cross product — so the
result does not contain exactly one joined row per game record. -/
theorem join_duplicates_game_rows :
    (merge_games_odds [cg0] [co1, co2]).length = 2 ∧
    (merge_games_odds [cg0] [co1, co2]).map Prod.fst = [cg0, cg0] ∧
    co1.spread ≠ co2.spread := by
  refine ⟨by decide, by decide, ?_⟩
  simp [co1, co2]

/-! ### Temporal train/test split

Source (train-ml-model-v3.py, lines 203-206):
```
split_date = model_data['date'].quantile(0.8)
train_data = model_data[model_data['date'] < split_date]
test_data = model_data[model_data['date'] >= split_date]
```
`Series.quantile(0.8)` sorts the dates and linearly interpolates at fractional position
`0.8 * (n - 1)`.  Dates are embedded as rationals (a totally ordered timestamp axis). -/

structure TrainRow where
  date : ℚ
  home_win : Bool
  deriving Repr, DecidableEq

/-- `Series.quantile(0.8)` with linear interpolation over the sorted values. -/
def date_quantile_08 (dates : List ℚ) : ℚ :=
  let s := List.insertionSort (fun a b : ℚ => a ≤ b) dates
  let n := dates.length
  if n = 0 then 0
  else
    let h : ℚ := 4 * ((n : ℚ) - 1) / 5
    let lo : Nat := (Int.floor h).toNat
    let frac : ℚ := h - lo
    let slo := s.getD lo 0
    let shi := s.getD (lo + 1) slo
    slo + frac * (shi - slo)

/-- The date cutoff of `train_model`. -/
def split_date (md : List TrainRow) : ℚ := date_quantile_08 (md.map TrainRow.date)

/-- `train_data = model_data[model_data['date'] < split_date]`. -/
def train_data (md : List TrainRow) : List TrainRow :=
  md.filter (fun r => decide (r.date < split_date md))

/-- `test_data = model_data[model_data['date'] >= split_date]`. -/
def test_data (md : List TrainRow) : List TrainRow :=
  md.filter (fun r => decide (split_date md ≤ r.date))

/-- C4: the split is temporal: rows strictly before the 0.8-quantile cutoff form the
training set, rows at or after it form the test set, every training-row date strictly
precedes every test-row date, and no row is in both sets. -/
theorem temporal_split_spec (md : List TrainRow) :
    (∀ r ∈ train_data md, ∀ s ∈ test_data md, r.date < s.date) ∧
    (∀ r : TrainRow, ¬(r ∈ train_data md ∧ r ∈ test_data md)) ∧
    (∀ r ∈ md, r.date < split_date md → r ∈ train_data md) ∧
    (∀ r ∈ md, split_date md ≤ r.date → r ∈ test_data md) ∧
    (∀ r ∈ md, r ∈ train_data md ∨ r ∈ test_data md) := by
  refine ⟨?_, ?_, ?_, ?_, ?_⟩
  · intro r hr s hs
    have h1 : r.date < split_date md := of_decide_eq_true (List.mem_filter.mp hr).2
    have h2 : split_date md ≤ s.date := of_decide_eq_true (List.mem_filter.mp hs).2
    linarith
  · rintro r ⟨hr, hs⟩
    have h1 : r.date < split_date md := of_decide_eq_true (List.mem_filter.mp hr).2
    have h2 : split_date md ≤ r.date := of_decide_eq_true (List.mem_filter.mp hs).2
    linarith
  · intro r hr h
    exact List.mem_filter.mpr ⟨hr, decide_eq_true h⟩
  · intro r hr h
    exact List.mem_filter.mpr ⟨hr, decide_eq_true h⟩
  · intro r hr
    by_cases h : r.date < split_date md
    · exact Or.inl (List.mem_filter.mpr ⟨hr, decide_eq_true h⟩)
    · exact Or.inr (List.mem_filter.mpr ⟨hr, decide_eq_true (not_lt.mp h)⟩)

def cmd0 : List TrainRow := [⟨1, true⟩, ⟨2, false⟩, ⟨3, true⟩, ⟨4, false⟩, ⟨5, true⟩]

/-- C4 witness: on a concrete dataset, a row is never in both sets and always in one. -/
theorem temporal_split_spec_witness :
    (¬((⟨3, true⟩ : TrainRow) ∈ train_data cmd0 ∧ (⟨3, true⟩ : TrainRow) ∈ test_data cmd0)) ∧
    ((⟨3, true⟩ : TrainRow) ∈ train_data cmd0 ∨ (⟨3, true⟩ : TrainRow) ∈ test_data cmd0) :=
  ⟨(temporal_split_spec cmd0).2.1 ⟨3, true⟩,
   (temporal_split_spec cmd0).2.2.2.2 ⟨3, true⟩ (by decide)⟩

/-! ### Training-run guard

Source (train-ml-model-v3.py, lines 194-231 and 271-346).  `run` engineers features over
the full data and aborts before any fitting when fewer than 1000 rows remain; otherwise
it calls `train_model(model_data, feature_cols, 'global')` and then `train_2025_model`,
which re-merges only the seasons 2019-2023 and calls `train_model(..., '2025')` on that
subset with no row-count check of its own:
```
def run(self):
    games_df, odds_df = self.load_data()
    model_data, feature_cols = self.engineer_features(games_df, odds_df)
    if len(model_data) < 1000:
        print(f'ERROR: Only {len(model_data)} samples')
        return
    self.train_model(model_data, feature_cols, 'global')
    self.train_2025_model(games_df, odds_df, feature_cols)
```
Inside `train_model` the data is split at the 0.8 date quantile and the scaler and the
classifier are fitted on the train part:
```
split_date = model_data['date'].quantile(0.8)
train_data = model_data[model_data['date'] < split_date]
...
scaler = StandardScaler()
X_train_scaled = scaler.fit_transform(X_train)
...
model.fit(X_train_scaled, y_train)
```
`StandardScaler.fit_transform` raises `ValueError` on an empty `X_train`, so an empty
temporal train split aborts `train_model` before anything of that family is fitted, and
the uncaught exception aborts the rest of the run (if the `global` call raises, the
`2025` call never happens; if the `2025` call raises, the already fitted and saved
`global` pair stands).  `train_model_fit` returns `none` on that error path and
otherwise the row count of the engineered data the family is trained from — the
quantity the 1000-row guard inspects; the actual fit uses the 0.8 train split of it.
`run_fits` chains the guard and the two `train_model` calls with this error
propagation and returns the (family, engineered sample size) pairs actually fitted. -/

def recent_seasons : List Int := [2019, 2020, 2021, 2022, 2023]

/-- The re-merge of `train_2025_model`: both inputs filtered to the recent seasons, then
joined exactly as in `engineer_features`. -/
def train_2025_merge (games : List GameRec) (odds : List OddsRec) :
    List (GameRec × OddsRec) :=
  merge_games_odds (games.filter (fun g => recent_seasons.contains g.season))
    (odds.filter (fun o => recent_seasons.contains o.season))

/-- One `train_model` call on engineered rows: `none` when the temporal train split is
empty (the sklearn `ValueError` on a 0-sample `fit_transform`, nothing fitted),
otherwise the engineered row count the family is fitted from. -/
def train_model_fit (md : List (GameRec × OddsRec)) : Option Nat :=
  let c := date_quantile_08 (md.map (fun p => (p.1.date : ℚ)))
  let tr := md.filter (fun p => decide ((p.1.date : ℚ) < c))
  if tr.isEmpty then none else some md.length

/-- The (family, engineered sample size) pairs fitted by one `run`. -/
def run_fits (games : List GameRec) (odds : List OddsRec) : List (String × Nat) :=
  let model_data := merge_games_odds games odds
  if model_data.length < 1000 then []
  else
    match train_model_fit model_data with
    | none => []
    | some n =>
      match train_model_fit (train_2025_merge games odds) with
      | none => [("global", n)]
      | some m => [("global", n), ("2025", m)]

lemma train_model_fit_length (md : List (GameRec × OddsRec)) (k : Nat)
    (h : train_model_fit md = some k) : k = md.length := by
  simp only [train_model_fit] at h
  split at h
  · exact absurd h (by simp)
  · exact (Option.some.inj h).symm

/-- In a sorted list, if the element at position `k` is at most `x` then at least
`k + 1` elements are at most `x`. -/
lemma sorted_count_ge (x : ℚ) :
    ∀ (s : List ℚ), List.Sorted (fun a b : ℚ => a ≤ b) s → ∀ k, k < s.length →
      s.getD k 0 ≤ x → k + 1 ≤ s.countP (fun y => decide (y ≤ x))
  | [], _, k, hk, _ => by simp at hk
  | a :: t, hs, 0, hk, hle => by
    have hd : a ≤ x := by simpa using hle
    simp [List.countP_cons, decide_eq_true hd]
  | a :: t, hs, (k+1), hk, hle => by
    rcases List.sorted_cons.mp hs with ⟨ha, ht⟩
    have hk2 : k < t.length := by simpa using hk
    have hle2 : t.getD k 0 ≤ x := by simpa using hle
    have h1 := sorted_count_ge x t ht k hk2 hle2
    have hmem : t.getD k 0 ∈ t := by
      rw [List.getD_eq_getElem?_getD, List.getElem?_eq_getElem hk2, Option.getD_some]
      exact List.getElem_mem hk2
    have hax : a ≤ x := le_trans (ha _ hmem) hle2
    have hcp : List.countP (fun y => decide (y ≤ x)) (a :: t) =
        List.countP (fun y => decide (y ≤ x)) t + 1 := by
      simp [List.countP_cons, decide_eq_true hax]
    rw [hcp]
    omega

/-- In a sorted list, if at most `k` elements are at most `x` then the element at
position `k` exceeds `x`. -/
lemma lt_getD_of_count_le (x : ℚ) (s : List ℚ)
    (hs : List.Sorted (fun a b : ℚ => a ≤ b) s) (k : Nat) (hk : k < s.length)
    (hc : s.countP (fun y => decide (y ≤ x)) ≤ k) : x < s.getD k 0 := by
  by_contra hcon
  push_neg at hcon
  have := sorted_count_ge x s hs k hk hcon
  omega

/-- The interpolated 0.8 quantile is at least the order statistic at the floor
position. -/
lemma le_date_quantile_08 (dates : List ℚ) (hne : dates.length ≠ 0) :
    (List.insertionSort (fun a b : ℚ => a ≤ b) dates).getD
      ((Int.floor (4 * ((dates.length : ℚ) - 1) / 5)).toNat) 0 ≤
      date_quantile_08 dates := by
  simp only [date_quantile_08]
  rw [if_neg hne]
  set s := List.insertionSort (fun a b : ℚ => a ≤ b) dates with hsdef
  set h : ℚ := 4 * ((dates.length : ℚ) - 1) / 5 with hh
  set lo : Nat := (Int.floor h).toNat with hlodef
  have hn1 : (1:ℚ) ≤ (dates.length : ℚ) := by
    exact_mod_cast Nat.one_le_iff_ne_zero.mpr hne
  have hpos : 0 ≤ h := by
    rw [hh]
    apply div_nonneg _ (by norm_num)
    nlinarith
  have hfl : ((lo : ℕ) : ℚ) = ((Int.floor h : ℤ) : ℚ) := by
    rw [hlodef]
    exact_mod_cast congrArg Int.cast (Int.toNat_of_nonneg (Int.floor_nonneg.mpr hpos))
  have hfrac : 0 ≤ h - (lo : ℚ) := by
    rw [hfl]
    have := Int.floor_le h
    linarith
  have hshi : s.getD lo 0 ≤ s.getD (lo + 1) (s.getD lo 0) := by
    by_cases hrange : lo + 1 < s.length
    · have hlolt : lo < s.length := Nat.lt_of_succ_lt hrange
      rw [List.getD_eq_getElem?_getD s (lo + 1), List.getElem?_eq_getElem hrange,
          List.getD_eq_getElem?_getD s lo, List.getElem?_eq_getElem hlolt]
      simp only [Option.getD_some]
      have hsorted : List.Sorted (fun a b : ℚ => a ≤ b) s :=
        List.sorted_insertionSort _ dates
      have h2 := hsorted.rel_get_of_lt
        (a := ⟨lo, hlolt⟩) (b := ⟨lo + 1, hrange⟩) (by exact Nat.lt_succ_self lo)
      simpa [List.get_eq_getElem] using h2
    · push_neg at hrange
      rw [List.getD_eq_getElem?_getD s (lo + 1), List.getElem?_eq_none hrange]
      simp
  have hmul : 0 ≤ (h - (lo : ℚ)) * (s.getD (lo + 1) (s.getD lo 0) - s.getD lo 0) :=
    mul_nonneg hfrac (sub_nonneg.mpr hshi)
  linarith

/-- When a row `p0` exists whose date is so small that at most
`floor(0.8 * (n - 1))` rows have a date at most it, the temporal train split of
`train_model` is nonempty and the (scaler, classifier) pair of that call is fitted. -/
lemma train_model_fit_succeeds (md : List (GameRec × OddsRec)) (p0 : GameRec × OddsRec)
    (hmem : p0 ∈ md)
    (hcount : md.countP (fun p => decide (p.1.date ≤ p0.1.date)) ≤
      (Int.floor (4 * ((md.length : ℚ) - 1) / 5)).toNat)
    (hlo : (Int.floor (4 * ((md.length : ℚ) - 1) / 5)).toNat < md.length) :
    train_model_fit md = some md.length := by
  have hlen : (md.map (fun p => (p.1.date : ℚ))).length = md.length := List.length_map _ _
  have hne : (md.map (fun p => (p.1.date : ℚ))).length ≠ 0 := by
    rw [hlen]
    exact fun h0 => List.ne_nil_of_mem hmem (List.length_eq_zero.mp h0)
  set dates := md.map (fun p => (p.1.date : ℚ)) with hdates
  set s := List.insertionSort (fun a b : ℚ => a ≤ b) dates with hsdef
  have hslen : s.length = md.length := by
    rw [hsdef, (List.perm_insertionSort _ dates).length_eq, hlen]
  have hcnt : s.countP (fun y => decide (y ≤ (p0.1.date : ℚ))) ≤
      (Int.floor (4 * ((md.length : ℚ) - 1) / 5)).toNat := by
    have hperm : s.countP (fun y => decide (y ≤ (p0.1.date : ℚ))) =
        dates.countP (fun y => decide (y ≤ (p0.1.date : ℚ))) :=
      (List.perm_insertionSort _ dates).countP_eq _
    have hmap : dates.countP (fun y => decide (y ≤ (p0.1.date : ℚ))) =
        md.countP ((fun y => decide (y ≤ (p0.1.date : ℚ))) ∘ (fun p => (p.1.date : ℚ))) := by
      rw [hdates]
      exact List.countP_map _ _ _
    have hcongr :
        md.countP ((fun y => decide (y ≤ (p0.1.date : ℚ))) ∘ (fun p => (p.1.date : ℚ))) =
        md.countP (fun p => decide (p.1.date ≤ p0.1.date)) := by
      apply List.countP_congr
      intro p hp
      simp only [Function.comp_apply, decide_eq_true_eq]
      exact Int.cast_le
    rw [hperm, hmap, hcongr]
    exact hcount
  have hsorted : List.Sorted (fun a b : ℚ => a ≤ b) s :=
    List.sorted_insertionSort _ dates
  have hklt : (Int.floor (4 * ((md.length : ℚ) - 1) / 5)).toNat < s.length := by
    rw [hslen]
    exact hlo
  have hlt : (p0.1.date : ℚ) <
      s.getD ((Int.floor (4 * ((md.length : ℚ) - 1) / 5)).toNat) 0 :=
    lt_getD_of_count_le _ s hsorted _ hklt hcnt
  have hq := le_date_quantile_08 dates hne
  rw [hlen] at hq
  have hcut : (p0.1.date : ℚ) < date_quantile_08 dates := lt_of_lt_of_le hlt (by
    rw [hsdef]
    exact hq)
  have hFmem : p0 ∈ md.filter (fun p => decide ((p.1.date : ℚ) < date_quantile_08 dates)) :=
    List.mem_filter.mpr ⟨hmem, decide_eq_true hcut⟩
  have hFne : (md.filter
      (fun p => decide ((p.1.date : ℚ) < date_quantile_08 dates))).isEmpty = false :=
    List.isEmpty_eq_false.mpr (List.ne_nil_of_mem hFmem)
  simp only [train_model_fit]
  rw [← hdates, hFne]
  simp

/-- The counterexample run input: 1000 games with pairwise distinct dates 1..1000, the
first 10 in season 2020 (dates 1..10), the rest in season 2010, alternating home wins,
each matching exactly one odds row of its season.  The full merge has 1000 rows with
0.8-quantile cutoff 800.2, so the global fit trains on the 800 earliest rows (both
classes present in train and test) and succeeds; the 2019-2023 re-merge has the 10
season-2020 rows with cutoff 8.2, so the `2025` fit trains on its 8 earliest rows (both
classes present) and also succeeds — on a family sample of 10 rows. -/
def cexGame (k : Nat) : GameRec :=
  ⟨k, (k : Int) + 1, if k < 10 then 2020 else 2010, codes "x", codes "y", k % 2 == 0⟩

def cexGames : List GameRec := (List.range 1000).map cexGame

def cexO20 : OddsRec := ⟨2020, 0, codes "x", codes "y", some 4, some 220, some 130, some 110⟩

def cexO10 : OddsRec := ⟨2010, 0, codes "x", codes "y", some 4, some 220, some 130, some 110⟩

def cexOdds : List OddsRec := [cexO20, cexO10]

/-- The merged row of game `k`: the game joined with its season's single odds row. -/
def cexPair (k : Nat) : GameRec × OddsRec :=
  (cexGame k, if k < 10 then cexO20 else cexO10)

lemma flatMap_singleton_eq_map {α β : Type} (f : α → β) (l : List α) :
    (l.flatMap fun x => [f x]) = l.map f := by
  induction l with
  | nil => rfl
  | cons a t ih => simp [ih]

/-- Game `k` key-matches exactly its own season's odds row. -/
lemma cex_filter (k : Nat) :
    (cexOdds.filter (fun o => odds_key_match (cexGame k) o)).map
      (fun o => (cexGame k, o)) = [cexPair k] := by
  have hA : (lowerTok (stripTok (codes "x")) == map_team_name (codes "x")) = true := by decide
  have hB : (lowerTok (stripTok (codes "y")) == map_team_name (codes "y")) = true := by decide
  by_cases hk : k < 10
  · have h20 : odds_key_match (cexGame k) cexO20 = true := by
      simp [odds_key_match, cexGame, cexO20, hk, hA, hB]
    have h10 : odds_key_match (cexGame k) cexO10 = false := by
      simp [odds_key_match, cexGame, cexO10, hk, hA, hB]
    simp [cexOdds, h20, h10, cexPair, hk]
  · have h20 : odds_key_match (cexGame k) cexO20 = false := by
      simp [odds_key_match, cexGame, cexO20, hk, hA, hB]
    have h10 : odds_key_match (cexGame k) cexO10 = true := by
      simp [odds_key_match, cexGame, cexO10, hk, hA, hB]
    simp [cexOdds, h20, h10, cexPair, hk]

/-- The full merge, row by row: one joined row per game. -/
lemma cex_merged_eq :
    merge_games_odds cexGames cexOdds = (List.range 1000).map cexPair := by
  unfold merge_games_odds cexGames
  rw [List.flatMap_map]
  calc (List.range 1000).flatMap (fun k =>
        (cexOdds.filter (fun o => odds_key_match (cexGame k) o)).map
          (fun o => (cexGame k, o)))
      = (List.range 1000).flatMap (fun k => [cexPair k]) := by
        rw [funext cex_filter]
    _ = (List.range 1000).map cexPair := flatMap_singleton_eq_map _ _

set_option maxRecDepth 4000 in
/-- The 2019-2023 re-merge, row by row: the 10 season-2020 games. -/
lemma cex_sub_eq :
    train_2025_merge cexGames cexOdds =
      (List.range 10).map (fun k => (cexGame k, cexO20)) := by
  have hgames : cexGames.filter (fun g => recent_seasons.contains g.season) =
      (List.range 10).map cexGame := by
    unfold cexGames
    rw [List.filter_map]
    have hpt : ((fun g : GameRec => recent_seasons.contains g.season) ∘ cexGame) =
        (fun k => decide (k < 10)) := by
      funext k
      by_cases hk : k < 10 <;>
        simp [Function.comp, cexGame, recent_seasons, hk]
    rw [hpt, show (List.range 1000).filter (fun k => decide (k < 10)) = List.range 10 by decide]
  have hodds : cexOdds.filter (fun o => recent_seasons.contains o.season) = [cexO20] := by
    decide
  unfold train_2025_merge
  rw [hgames, hodds]
  unfold merge_games_odds
  rw [List.flatMap_map]
  have hpt2 : ∀ k ∈ List.range 10,
      ([cexO20].filter (fun o => odds_key_match (cexGame k) o)).map
        (fun o => (cexGame k, o)) = [(cexGame k, cexO20)] := by
    intro k hk
    have hk10 : k < 10 := List.mem_range.mp hk
    have h20 : odds_key_match (cexGame k) cexO20 = true := by
      have hA : (lowerTok (stripTok (codes "x")) == map_team_name (codes "x")) = true := by
        decide
      have hB : (lowerTok (stripTok (codes "y")) == map_team_name (codes "y")) = true := by
        decide
      simp [odds_key_match, cexGame, cexO20, hk10, hA, hB]
    simp [h20]
  calc (List.range 10).flatMap (fun k =>
        ([cexO20].filter (fun o => odds_key_match (cexGame k) o)).map
          (fun o => (cexGame k, o)))
      = (List.range 10).flatMap (fun k => [(cexGame k, cexO20)]) := by
        rw [List.flatMap]
        rw [List.map_congr_left hpt2]
        rfl
    _ = (List.range 10).map (fun k => (cexGame k, cexO20)) := flatMap_singleton_eq_map _ _

lemma cex_pair_zero : cexPair 0 = (cexGame 0, cexO20) := by
  simp [cexPair]

set_option maxRecDepth 8000 in
/-- C7 counterexample: the guard passes (1000 engineered rows), the global fit succeeds,
and the run then fits the `2025` family on its re-merged recent-season subset of 10 rows
— a (scaler, classifier) pair is fitted on a sample below the 1000-row threshold. -/
theorem run_fits_2025_below_threshold :
    ("2025", 10) ∈ run_fits cexGames cexOdds ∧ 10 < 1000 := by
  refine ⟨?_, by omega⟩
  have h1 : (merge_games_odds cexGames cexOdds).length = 1000 := by
    rw [cex_merged_eq]
    simp
  have h2 : (train_2025_merge cexGames cexOdds).length = 10 := by
    rw [cex_sub_eq]
    simp
  have hdate0 : (cexPair 0).1.date = 1 := by simp [cexPair, cexGame]
  have hcdate : ∀ k, decide ((cexPair k).1.date ≤ (cexPair 0).1.date) = decide (k = 0) := by
    intro k
    apply decide_eq_decide.mpr
    simp only [cexPair, cexGame]
    omega
  have hfg1 : (1:ℤ) ≤ Int.floor (4 * (((1000 : ℕ) : ℚ) - 1) / 5) :=
    Int.le_floor.mpr (by push_cast; norm_num)
  have hfs1 : (1:ℤ) ≤ Int.floor (4 * (((10 : ℕ) : ℚ) - 1) / 5) :=
    Int.le_floor.mpr (by push_cast; norm_num)
  have hfg2 : Int.floor (4 * (((1000 : ℕ) : ℚ) - 1) / 5) < 1000 :=
    Int.floor_lt.mpr (by push_cast; norm_num)
  have hfs2 : Int.floor (4 * (((10 : ℕ) : ℚ) - 1) / 5) < 10 :=
    Int.floor_lt.mpr (by push_cast; norm_num)
  have hTG : train_model_fit (merge_games_odds cexGames cexOdds) =
      some (merge_games_odds cexGames cexOdds).length := by
    apply train_model_fit_succeeds _ (cexPair 0)
    · rw [cex_merged_eq]
      exact List.mem_map.mpr ⟨0, List.mem_range.mpr (by norm_num), rfl⟩
    · rw [h1]
      have hcnt : (merge_games_odds cexGames cexOdds).countP
          (fun p => decide (p.1.date ≤ (cexPair 0).1.date)) = 1 := by
        rw [cex_merged_eq, List.countP_map]
        rw [show ((fun p : GameRec × OddsRec =>
            decide (p.1.date ≤ (cexPair 0).1.date)) ∘ cexPair) =
            (fun k => decide (k = 0)) from funext hcdate]
        decide
      rw [hcnt]
      omega
    · rw [h1]
      omega
  have hT25 : train_model_fit (train_2025_merge cexGames cexOdds) =
      some (train_2025_merge cexGames cexOdds).length := by
    apply train_model_fit_succeeds _ (cexPair 0)
    · rw [cex_sub_eq]
      exact List.mem_map.mpr ⟨0, List.mem_range.mpr (by norm_num), cex_pair_zero.symm⟩
    · rw [h2]
      have hcnt : (train_2025_merge cexGames cexOdds).countP
          (fun p => decide (p.1.date ≤ (cexPair 0).1.date)) = 1 := by
        rw [cex_sub_eq, List.countP_map]
        have hpt : ((fun p : GameRec × OddsRec =>
            decide (p.1.date ≤ (cexPair 0).1.date)) ∘ (fun k => (cexGame k, cexO20))) =
            (fun k => decide (k = 0)) := by
          funext k
          apply decide_eq_decide.mpr
          simp only [Function.comp, cexPair, cexGame]
          omega
        rw [hpt]
        decide
      rw [hcnt]
      omega
    · rw [h2]
      omega
  simp only [run_fits, hTG, hT25, h1, h2]
  norm_num

/-- C7 (amended): when the full engineered dataset has fewer than 1000 rows the run
aborts before fitting anything; the guard covers the full dataset — and hence the
`global` family, which is only ever fitted at 1000 rows or more — but it is not applied
to the re-merged `2025` subset. -/
theorem run_threshold_guard (games : List GameRec) (odds : List OddsRec) :
    ((merge_games_odds games odds).length < 1000 → run_fits games odds = []) ∧
    (∀ n, ("global", n) ∈ run_fits games odds → 1000 ≤ n) := by
  constructor
  · intro h
    simp only [run_fits, if_pos h]
  · intro n hn
    simp only [run_fits] at hn
    by_cases h : (merge_games_odds games odds).length < 1000
    · rw [if_pos h] at hn
      simp at hn
    · rw [if_neg h] at hn
      cases e1 : train_model_fit (merge_games_odds games odds) with
      | none =>
        rw [e1] at hn
        simp at hn
      | some k =>
        rw [e1] at hn
        have hk : k = (merge_games_odds games odds).length := train_model_fit_length _ _ e1
        cases e2 : train_model_fit (train_2025_merge games odds) with
        | none =>
          rw [e2] at hn
          simp only [List.mem_singleton, Prod.mk.injEq] at hn
          omega
        | some m =>
          rw [e2] at hn
          simp only [List.mem_cons, List.mem_singleton, Prod.mk.injEq] at hn
          rcases hn with ⟨-, rfl⟩ | ⟨hbad, -⟩ | hn
          · omega
          · exact absurd hbad (by decide)
          · simp at hn

/-- C7 witness: an empty dataset is below the threshold and the run fits nothing. -/
theorem run_threshold_guard_witness : run_fits [] [] = [] :=
  (run_threshold_guard [] []).1 (by decide)

/-! ### Artifact selection

Source (predict-games-v3.py, lines 27-48):
```
pattern = f'nba_model_v3_{self.model_type}_*.joblib'
model_files = glob(f'{self.models_dir}/{pattern}')
if not model_files:
    print(f'No {self.model_type} model found. Using global.')
    pattern = 'nba_model_v3_global_*.joblib'
    model_files = glob(f'{self.models_dir}/{pattern}')
if not model_files:
    raise FileNotFoundError('No V3 model found')
latest_model = sorted(model_files)[-1]
latest_scaler = latest_model.replace('nba_model_', 'scaler_')
```
An artifact filename `nba_model_v3_{family}_{timestamp}.joblib` is embedded as a
(family, timestamp) pair; within one family's glob result the shared prefix makes the
lexicographic filename order coincide with the order of the fixed-width
`%Y%m%d_%H%M%S` timestamps, embedded as naturals.  The scaler of the pair shares the
family and timestamp.  `none` embeds the `FileNotFoundError`. -/

structure Artifact where
  family : String
  ts : Nat
  deriving Repr, DecidableEq

/-- `sorted(model_files)[-1]`. -/
def latestArtifact (l : List Artifact) : Option Artifact :=
  (List.insertionSort (fun a b : Artifact => a.ts ≤ b.ts) l).getLast?

/-- `NBAPredictorV3.load_model`: glob the requested family, fall back to the `global`
family when empty, fail when still empty, otherwise pick the last of the sorted list. -/
def load_model (files : List Artifact) (model_type : String) : Option Artifact :=
  let mf := files.filter (fun a => a.family == model_type)
  let mf := if mf.isEmpty then files.filter (fun a => a.family == "global") else mf
  latestArtifact mf

instance : IsTotal Artifact (fun a b : Artifact => a.ts ≤ b.ts) :=
  ⟨fun a b => Nat.le_total a.ts b.ts⟩

instance : IsTrans Artifact (fun a b : Artifact => a.ts ≤ b.ts) :=
  ⟨fun _ _ _ => Nat.le_trans⟩

lemma sorted_getLast_max (l : List Artifact) (m : Artifact)
    (hs : List.Sorted (fun a b : Artifact => a.ts ≤ b.ts) l) (hm : l.getLast? = some m) :
    ∀ x ∈ l, x.ts ≤ m.ts := by
  induction l with
  | nil => simp at hm
  | cons a t ih =>
    intro x hx
    cases t with
    | nil =>
      simp at hm hx
      subst hm
      subst hx
      exact Nat.le_refl _
    | cons b u =>
      rw [List.getLast?_cons_cons] at hm
      have hmem : m ∈ b :: u := List.mem_of_getLast?_eq_some hm
      rcases List.mem_cons.mp hx with rfl | hxt
      · exact (List.sorted_cons.mp hs).1 m hmem
      · exact ih (List.sorted_cons.mp hs).2 hm x hxt

lemma latestArtifact_spec (l : List Artifact) (hne : l ≠ []) :
    ∃ a, latestArtifact l = some a ∧ a ∈ l ∧ ∀ b ∈ l, b.ts ≤ a.ts := by
  have hperm := List.perm_insertionSort (fun a b : Artifact => a.ts ≤ b.ts) l
  have hsorted := List.sorted_insertionSort (fun a b : Artifact => a.ts ≤ b.ts) l
  have hne2 : List.insertionSort (fun a b : Artifact => a.ts ≤ b.ts) l ≠ [] := by
    intro h0
    exact hne (List.eq_nil_of_length_eq_zero (by rw [← hperm.length_eq, h0]; rfl))
  cases e : (List.insertionSort (fun a b : Artifact => a.ts ≤ b.ts) l).getLast? with
  | none => exact absurd (List.getLast?_eq_none_iff.mp e) hne2
  | some m =>
    refine ⟨m, e, hperm.mem_iff.mp (List.mem_of_getLast?_eq_some e), fun b hb => ?_⟩
    exact sorted_getLast_max _ m hsorted e b (hperm.mem_iff.mpr hb)

/-- C5: artifact selection deterministically returns the timestamp-latest artifact of the
requested family; when that family has no artifact it returns the timestamp-latest
artifact of the default `global` family; only when neither exists does loading fail. -/
theorem load_model_selects_latest (files : List Artifact) (model_type : String) :
    (files.filter (fun a => a.family == model_type) ≠ [] →
      ∃ a, load_model files model_type = some a ∧ a.family = model_type ∧
        ∀ b ∈ files, b.family = model_type → b.ts ≤ a.ts) ∧
    (files.filter (fun a => a.family == model_type) = [] →
      files.filter (fun a => a.family == "global") ≠ [] →
      ∃ a, load_model files model_type = some a ∧ a.family = "global" ∧
        ∀ b ∈ files, b.family = "global" → b.ts ≤ a.ts) ∧
    (files.filter (fun a => a.family == model_type) = [] →
      files.filter (fun a => a.family == "global") = [] →
      load_model files model_type = none) := by
  refine ⟨?_, ?_, ?_⟩
  · intro hne
    obtain ⟨a, ha, hmem, hmax⟩ := latestArtifact_spec _ hne
    have hload : load_model files model_type =
        latestArtifact (files.filter (fun a => a.family == model_type)) := by
      simp only [load_model]
      rw [if_neg (by simp [hne])]
    refine ⟨a, by rw [hload]; exact ha, ?_, ?_⟩
    · exact eq_of_beq (List.mem_filter.mp hmem).2
    · intro b hb hfam
      exact hmax b (List.mem_filter.mpr ⟨hb, beq_iff_eq.mpr hfam⟩)
  · intro hemp hne
    obtain ⟨a, ha, hmem, hmax⟩ := latestArtifact_spec _ hne
    have hload : load_model files model_type =
        latestArtifact (files.filter (fun a => a.family == "global")) := by
      simp only [load_model]
      rw [if_pos (by simp [hemp])]
    refine ⟨a, by rw [hload]; exact ha, ?_, ?_⟩
    · exact eq_of_beq (List.mem_filter.mp hmem).2
    · intro b hb hfam
      exact hmax b (List.mem_filter.mpr ⟨hb, beq_iff_eq.mpr hfam⟩)
  · intro hemp hgemp
    simp only [load_model, hemp, hgemp]
    rfl

def cfiles0 : List Artifact := [⟨"2025", 1⟩, ⟨"2025", 3⟩, ⟨"2025", 2⟩, ⟨"global", 5⟩]

/-- C5 witness: with three `2025` artifacts of timestamps 1 < 3 < 2 in glob order the
timestamp-3 artifact is selected; with no artifact at all, loading fails. -/
theorem load_model_selects_latest_witness :
    (∃ a, load_model cfiles0 "2025" = some a ∧ a.family = "2025" ∧
       ∀ b ∈ cfiles0, b.family = "2025" → b.ts ≤ a.ts) ∧
    load_model ([] : List Artifact) "none-such" = none :=
  ⟨(load_model_selects_latest cfiles0 "2025").1 (by decide),
   (load_model_selects_latest [] "none-such").2.2 rfl rfl⟩

/-! ### Serving endpoints

Source (python-service/app.py).  `MODELS` is the in-memory dict of loaded model
families, filled once at startup by `load_models`; both handlers begin with
```
if request.model_type not in MODELS:
    raise HTTPException(status_code=400, detail=f"Model {request.model_type} not found")
```
and only then score with the already-loaded model, never loading an artifact inside the
request.  A loaded (model, scaler) pair is embedded as an opaque batch scoring function
`List (List ℚ) → List ℚ` (the classifier algorithm itself is an external collaborator);
the raised `HTTPException` as the `Except.error` case carrying (status code, detail). -/

/-- Python dict lookup for the `MODELS` registry. -/
def svcLookup {α : Type} (m : List (String × α)) (k : String) : Option α :=
  m.foldl (fun acc p => if p.1 = k then some p.2 else acc) none

/-- The handlers' fixed feature extraction order. -/
def feature_order : List String :=
  ["elo_diff", "elo_diff_norm", "home_last10_wins", "away_last10_wins",
   "spread_num", "over_under", "ml_home_prob", "ml_away_prob",
   "rest_days_home", "rest_days_away", "season_norm"]

/-- A batch request: model family plus per-game feature dicts (name-keyed lookups). -/
structure PredictRequest where
  model_type : String
  games : List (String → ℚ)

/-- A single request: model family plus one fixed feature record. -/
structure SinglePredictRequest where
  model_type : String
  elo_diff : ℚ
  elo_diff_norm : ℚ
  home_last10_wins : ℚ
  away_last10_wins : ℚ
  spread_num : ℚ
  over_under : ℚ
  ml_home_prob : ℚ
  ml_away_prob : ℚ
  rest_days_home : ℚ
  rest_days_away : ℚ
  season_norm : ℚ

/-- `POST /predict` (`predict_batch`). -/
def predict_batch (models : List (String × (List (List ℚ) → List ℚ)))
    (req : PredictRequest) : Except (Nat × String) (String × List ℚ) :=
  match svcLookup models req.model_type with
  | none => .error (400, "Model " ++ req.model_type ++ " not found")
  | some model =>
    .ok (req.model_type, model (req.games.map (fun g => feature_order.map g)))

/-- `POST /predict/single` (`predict_single`). -/
def predict_single (models : List (String × (List (List ℚ) → List ℚ)))
    (req : SinglePredictRequest) : Except (Nat × String) ℚ :=
  match svcLookup models req.model_type with
  | none => .error (400, "Model " ++ req.model_type ++ " not found")
  | some model =>
    .ok ((model [[req.elo_diff, req.elo_diff_norm, req.home_last10_wins,
      req.away_last10_wins, req.spread_num, req.over_under, req.ml_home_prob,
      req.ml_away_prob, req.rest_days_home, req.rest_days_away,
      req.season_norm]]).getD 0 0)

lemma svcLookup_foldl_const {α : Type} (k : String) (m : List (String × α))
    (h : k ∉ m.map Prod.fst) :
    ∀ acc : Option α, m.foldl (fun acc p => if p.1 = k then some p.2 else acc) acc = acc := by
  induction m with
  | nil => intro acc; rfl
  | cons a t ih =>
    intro acc
    simp only [List.map_cons, List.mem_cons] at h
    push_neg at h
    rw [List.foldl_cons, if_neg (fun he => h.1 he.symm)]
    exact ih h.2 acc

lemma svcLookup_eq_none {α : Type} (k : String) (m : List (String × α))
    (h : k ∉ m.map Prod.fst) : svcLookup m k = none :=
  svcLookup_foldl_const k m h none

lemma svcLookup_isSome_aux {α : Type} (k : String) (m : List (String × α)) :
    ∀ acc : Option α, (k ∈ m.map Prod.fst ∨ ∃ v, acc = some v) →
      ∃ v, m.foldl (fun acc p => if p.1 = k then some p.2 else acc) acc = some v := by
  induction m with
  | nil =>
    intro acc h
    rcases h with h | h
    · simp at h
    · exact h
  | cons a t ih =>
    intro acc h
    rw [List.foldl_cons]
    by_cases hk : a.1 = k
    · exact ih _ (Or.inr ⟨a.2, by rw [if_pos hk]⟩)
    · rcases h with h | h
      · simp only [List.map_cons, List.mem_cons] at h
        rcases h with h | h
        · exact absurd h.symm hk
        · exact ih _ (Or.inl h)
      · exact ih _ (Or.inr (by rwa [if_neg hk]))

lemma svcLookup_isSome {α : Type} (k : String) (m : List (String × α))
    (h : k ∈ m.map Prod.fst) : ∃ v, svcLookup m k = some v :=
  svcLookup_isSome_aux k m none (Or.inl h)

/-- C8: a request whose model family is not among the loaded families gets exactly the
400 "Model ... not found" error, from both endpoints, with no prediction computed (the
result does not depend on any loaded model); a request whose family is loaded never gets
that error. -/
theorem unknown_family_is_client_error
    (models : List (String × (List (List ℚ) → List ℚ)))
    (req : PredictRequest) (sreq : SinglePredictRequest) :
    (req.model_type ∉ models.map Prod.fst →
      predict_batch models req = .error (400, "Model " ++ req.model_type ++ " not found")) ∧
    (req.model_type ∈ models.map Prod.fst →
      ∃ resp, predict_batch models req = .ok resp) ∧
    (sreq.model_type ∉ models.map Prod.fst →
      predict_single models sreq =
        .error (400, "Model " ++ sreq.model_type ++ " not found")) ∧
    (sreq.model_type ∈ models.map Prod.fst →
      ∃ v, predict_single models sreq = .ok v) := by
  refine ⟨?_, ?_, ?_, ?_⟩
  · intro h
    simp only [predict_batch, svcLookup_eq_none _ _ h]
  · intro h
    obtain ⟨v, hv⟩ := svcLookup_isSome _ _ h
    refine ⟨(req.model_type, v (req.games.map (fun g => feature_order.map g))), ?_⟩
    simp only [predict_batch, hv]
  · intro h
    simp only [predict_single, svcLookup_eq_none _ _ h]
  · intro h
    obtain ⟨v, hv⟩ := svcLookup_isSome _ _ h
    refine ⟨(v [[sreq.elo_diff, sreq.elo_diff_norm, sreq.home_last10_wins,
      sreq.away_last10_wins, sreq.spread_num, sreq.over_under, sreq.ml_home_prob,
      sreq.ml_away_prob, sreq.rest_days_home, sreq.rest_days_away,
      sreq.season_norm]]).getD 0 0, ?_⟩
    simp only [predict_single, hv]

def csvc0 : List (String × (List (List ℚ) → List ℚ)) :=
  [("global", fun X => X.map (fun _ => 1/2)), ("2025", fun X => X.map (fun _ => 1/2))]

def csreq0 : SinglePredictRequest := ⟨"nope", 0, 0, 0, 0, 0, 0, 0, 0, 0, 0, 0⟩

def csreq1 : SinglePredictRequest := ⟨"2025", 0, 0, 0, 0, 0, 0, 0, 0, 0, 0, 0⟩

/-- C8 witness: an unloaded family gets the 400 error, a loaded family an ok response,
on concrete requests. -/
theorem unknown_family_is_client_error_witness :
    predict_single csvc0 csreq0 = .error (400, "Model nope not found") ∧
    (∃ v, predict_single csvc0 csreq1 = .ok v) :=
  ⟨(unknown_family_is_client_error csvc0 ⟨"x", []⟩ csreq0).2.2.1 (by decide),
   (unknown_family_is_client_error csvc0 ⟨"x", []⟩ csreq1).2.2.2 (by decide)⟩
